import Mathlib

/-!
Verification of the Nearby-Product-finder repository's response-extraction,
price-sorting and pipeline-orchestration logic, shallowly embedded in Lean.

Modelling conventions:
* JavaScript strings are modelled as `List Char` (Unicode scalar values); the
  code-unit/code-point distinction only matters for astral-plane characters,
  which none of the studied properties involve.
* `JSON.parse` is modelled by `jsonParseL` below, an executable recursive
  descent parser for the JSON grammar (RFC 8259 value grammar, including
  string escapes, numbers with fraction/exponent, nested arrays/objects and
  the four JSON whitespace characters).  Numbers are kept as exact rationals
  rather than IEEE doubles; the claims under study never compare numeric
  results across different parses, so the exact-vs-rounded distinction is
  irrelevant to them.  Lone-surrogate escape sequences are rejected (Lean
  `Char` cannot carry surrogates); no studied property involves them.
  Duplicate object keys are kept in order rather than last-wins collapsed;
  again no studied property involves them.
* `parseFloat` (as used by `parsePrice` on a string already stripped to
  digits and dots) is modelled by `parseFloatQ`, and the `Infinity` sentinel
  of `parsePrice` by `⊤ : WithTop ℚ`.
* `Array.prototype.sort` with a consistent comparator is a stable sort for
  the induced total preorder; it is modelled by `List.insertionSort`, which
  is stable.  (The `Infinity - Infinity = NaN` comparator result is treated
  as `+0` by the ECMAScript sort algorithm, i.e. a tie, which agrees with
  the induced preorder `≤` on `WithTop ℚ`.)
-/

namespace NPF

/-- Parsed JSON values, as produced by the model of `JSON.parse`. -/
inductive Json where
  | null : Json
  | bool (b : Bool) : Json
  | num (q : ℚ) : Json
  | str (s : String) : Json
  | arr (elems : List Json) : Json
  | obj (fields : List (String × Json)) : Json

/-- The double-quote character, kept as a named constant. -/
def quoteC : Char := Char.ofNat 34

/-- The backslash character, kept as a named constant. -/
def backslashC : Char := Char.ofNat 92

/-- The opening curly brace character. -/
def lbraceC : Char := Char.ofNat 123

/-- The closing curly brace character. -/
def rbraceC : Char := Char.ofNat 125

/-- JSON insignificant whitespace: space, tab, line feed, carriage return. -/
def jsWsChar (c : Char) : Bool :=
  c == ' ' || c == '\t' || c == '\n' || c == '\r'

/-- Value of a hexadecimal digit, if the character is one. -/
def hexVal (c : Char) : Option Nat :=
  if c.isDigit then some (c.toNat - 48)
  else if 'a' ≤ c ∧ c ≤ 'f' then some (c.toNat - 87)
  else if 'A' ≤ c ∧ c ≤ 'F' then some (c.toNat - 55)
  else none

/-- Parse the body of a JSON string literal (the opening quote already
consumed); returns the decoded characters and the input after the closing
quote.  Control characters below 0x20 must be escaped; escape sequences are
those of RFC 8259.  A `\u` escape denoting a surrogate is rejected. -/
def parseStringLit : List Char → Option (List Char × List Char)
  | [] => none
  | c :: cs =>
    if c = quoteC then some ([], cs)
    else if c = backslashC then
      match cs with
      | [] => none
      | e :: cs2 =>
        if e = quoteC then (parseStringLit cs2).map (fun p => (quoteC :: p.1, p.2))
        else if e = backslashC then (parseStringLit cs2).map (fun p => (backslashC :: p.1, p.2))
        else if e = '/' then (parseStringLit cs2).map (fun p => ('/' :: p.1, p.2))
        else if e = 'b' then (parseStringLit cs2).map (fun p => (Char.ofNat 8 :: p.1, p.2))
        else if e = 'f' then (parseStringLit cs2).map (fun p => (Char.ofNat 12 :: p.1, p.2))
        else if e = 'n' then (parseStringLit cs2).map (fun p => (Char.ofNat 10 :: p.1, p.2))
        else if e = 'r' then (parseStringLit cs2).map (fun p => (Char.ofNat 13 :: p.1, p.2))
        else if e = 't' then (parseStringLit cs2).map (fun p => (Char.ofNat 9 :: p.1, p.2))
        else if e = 'u' then
          match cs2 with
          | a :: b :: d :: g :: cs3 =>
            match hexVal a, hexVal b, hexVal d, hexVal g with
            | some x1, some x2, some x3, some x4 =>
              let n := ((x1 * 16 + x2) * 16 + x3) * 16 + x4
              if n.isValidChar then
                (parseStringLit cs3).map (fun p => (Char.ofNat n :: p.1, p.2))
              else none
            | _, _, _, _ => none
          | _ => none
        else none
    else if c.toNat < 32 then none
    else (parseStringLit cs).map (fun p => (c :: p.1, p.2))

/-- Numeric value of a (already validated) digit character. -/
def digitVal (c : Char) : Nat := c.toNat - 48

/-- Value of a list of decimal digit characters. -/
def digitsToNat (ds : List Char) : Nat :=
  ds.foldl (fun a c => a * 10 + digitVal c) 0

/-- Parse the optional exponent part of a JSON number and finish the number.
`m` is the (unsigned) mantissa value accumulated so far. -/
def parseNumberExp (neg : Bool) (m : ℚ) (cs : List Char) : Option (ℚ × List Char) :=
  let signed : ℚ := if neg then -m else m
  match cs with
  | c :: rest =>
    if c = 'e' ∨ c = 'E' then
      let sr : ℤ × List Char :=
        match rest with
        | d :: r3 => if d = '+' then (1, r3) else if d = '-' then (-1, r3) else (1, rest)
        | [] => (1, [])
      let ds := sr.2.takeWhile Char.isDigit
      if ds = [] then none
      else some (signed * (10 : ℚ) ^ (sr.1 * (digitsToNat ds : ℤ)), sr.2.dropWhile Char.isDigit)
    else some (signed, cs)
  | [] => some (signed, [])

/-- Parse the optional fraction part of a JSON number, then the exponent. -/
def parseNumberFrac (neg : Bool) (intVal : Nat) (cs : List Char) : Option (ℚ × List Char) :=
  match cs with
  | c :: rest =>
    if c = '.' then
      let ds := rest.takeWhile Char.isDigit
      if ds = [] then none
      else
        parseNumberExp neg ((intVal : ℚ) + (digitsToNat ds : ℚ) / (10 : ℚ) ^ ds.length)
          (rest.dropWhile Char.isDigit)
    else parseNumberExp neg (intVal : ℚ) cs
  | [] => parseNumberExp neg (intVal : ℚ) []

/-- Parse a JSON number token: optional minus, integer part without leading
zeros, optional fraction, optional exponent. -/
def parseNumber (cs : List Char) : Option (ℚ × List Char) :=
  let sr : Bool × List Char :=
    match cs with
    | c :: rest => if c = '-' then (true, rest) else (false, cs)
    | [] => (false, [])
  match sr.2 with
  | [] => none
  | c :: rest =>
    if c = '0' then parseNumberFrac sr.1 0 rest
    else if c.isDigit then
      parseNumberFrac sr.1 (digitsToNat (c :: rest.takeWhile Char.isDigit))
        (rest.dropWhile Char.isDigit)
    else none

mutual

/-- Parse a JSON value from the input, fuelled; returns the value and the
remaining input.  The fuel only bounds recursion depth; `jsonParseL` supplies
enough fuel for any input of the given length. -/
def parseVal : Nat → List Char → Option (Json × List Char)
  | 0, _ => none
  | Nat.succ f, cs0 =>
    let cs := cs0.dropWhile jsWsChar
    if ['t', 'r', 'u', 'e'].isPrefixOf cs then some (Json.bool true, cs.drop 4)
    else if ['f', 'a', 'l', 's', 'e'].isPrefixOf cs then some (Json.bool false, cs.drop 5)
    else if ['n', 'u', 'l', 'l'].isPrefixOf cs then some (Json.null, cs.drop 4)
    else
      match cs with
      | [] => none
      | c :: rest =>
        if c = quoteC then
          (parseStringLit rest).map (fun p => (Json.str (String.mk p.1), p.2))
        else if c = '[' then
          match rest.dropWhile jsWsChar with
          | [] => none
          | d :: r2 => if d = ']' then some (Json.arr [], r2) else parseArrLoop f rest []
        else if c = lbraceC then
          match rest.dropWhile jsWsChar with
          | [] => none
          | d :: r2 => if d = rbraceC then some (Json.obj [], r2) else parseObjLoop f rest []
        else (parseNumber cs).map (fun p => (Json.num p.1, p.2))

/-- Parse the (non-empty) element list of a JSON array, fuelled. -/
def parseArrLoop : Nat → List Char → List Json → Option (Json × List Char)
  | 0, _, _ => none
  | Nat.succ f, cs, acc =>
    match parseVal f cs with
    | none => none
    | some (v, rest) =>
      match rest.dropWhile jsWsChar with
      | [] => none
      | c :: r2 =>
        if c = ',' then parseArrLoop f r2 (acc ++ [v])
        else if c = ']' then some (Json.arr (acc ++ [v]), r2)
        else none

/-- Parse the (non-empty) member list of a JSON object, fuelled. -/
def parseObjLoop : Nat → List Char → List (String × Json) → Option (Json × List Char)
  | 0, _, _ => none
  | Nat.succ f, cs, acc =>
    match cs.dropWhile jsWsChar with
    | [] => none
    | c :: rest =>
      if c = quoteC then
        match parseStringLit rest with
        | none => none
        | some (key, r1) =>
          match r1.dropWhile jsWsChar with
          | [] => none
          | d :: r2 =>
            if d = ':' then
              match parseVal f r2 with
              | none => none
              | some (v, r3) =>
                match r3.dropWhile jsWsChar with
                | [] => none
                | e :: r4 =>
                  if e = ',' then parseObjLoop f r4 (acc ++ [(String.mk key, v)])
                  else if e = rbraceC then some (Json.obj (acc ++ [(String.mk key, v)]), r4)
                  else none
            else none
      else none

end

/-- Model of `JSON.parse` on character lists: parse one value, then require
only trailing whitespace.  On any failure the JS exception is modelled by
`none` (the extractor's `try`/`catch` converts it to `null`). -/
def jsonParseL (cs : List Char) : Option Json :=
  match parseVal (2 * cs.length + 4) cs with
  | none => none
  | some (v, rest) => if rest.dropWhile jsWsChar = [] then some v else none

/-- Model of `JSON.parse` on strings. -/
def jsonParse (s : String) : Option Json := jsonParseL s.data

/-!
Model of `parseJsonResponse` (src/services/geminiService.ts lines 22-49).
The regex is `/AAA(?:json)?\s*([\s\S]*?)\s*AAA/` where `AAA` stands for a run
of three backticks.  Its behaviour, derived below in executable form:

* the match starts at the first occurrence of three consecutive backticks;
* the optional `json` tag is consumed exactly when it immediately follows;
* the closing delimiter is the next occurrence of three consecutive
  backticks, and the capture group is the text in between with leading and
  trailing regex-whitespace stripped (lazy capture flanked by greedy `\s*`);
* if the first opening delimiter has no closing one, no later start position
  can match either (the characters skipped over contain no backtick run), so
  the regex fails to match at all.
-/

/-- Is this character a backtick? -/
def isTick (c : Char) : Bool := c.toNat = 96

/-- Split the input at the first run of three consecutive backticks:
returns the characters before it and the characters after it. -/
def splitFence : List Char → Option (List Char × List Char)
  | c1 :: c2 :: c3 :: rest =>
    if isTick c1 && isTick c2 && isTick c3 then some ([], rest)
    else
      match splitFence (c2 :: c3 :: rest) with
      | some p => some (c1 :: p.1, p.2)
      | none => none
  | _ => none

/-- The ECMAScript regex `\s` character class. -/
def regexWsChar (c : Char) : Bool :=
  let n := c.toNat
  n = 32 || (9 ≤ n && n ≤ 13) || n = 160 || n = 5760 || (8192 ≤ n && n ≤ 8202) ||
    n = 8232 || n = 8233 || n = 8239 || n = 8287 || n = 12288 || n = 65279

/-- Strip leading and trailing regex whitespace. -/
def trimWs (l : List Char) : List Char :=
  ((l.dropWhile regexWsChar).reverse.dropWhile regexWsChar).reverse

/-- The capture group of the extractor's fence regex, when it matches:
content of the first fenced block, with an immediately following `json` tag
consumed and surrounding whitespace trimmed. -/
def fenceCapture (cs : List Char) : Option (List Char) :=
  match splitFence cs with
  | none => none
  | some op =>
    let body := if ['j', 's', 'o', 'n'].isPrefixOf op.2 then op.2.drop 4 else op.2
    match splitFence body with
    | none => none
    | some cl => some (trimWs cl.1)

/-- Index of the first occurrence of a character (`String.indexOf` with the
`-1` sentinel rendered as `none`). -/
def idxOf (c : Char) : List Char → Option Nat
  | [] => none
  | x :: xs => if x = c then some 0 else (idxOf c xs).map (fun n => n + 1)

/-- Index of the last occurrence of a character (`String.lastIndexOf`). -/
def lastIdxOf (c : Char) (cs : List Char) : Option Nat :=
  (idxOf c cs.reverse).map (fun i => cs.length - 1 - i)

/-- The extractor's `startIdx` computation: the first occurrence of a curly
brace or square bracket, whichever comes first. -/
def startIdx (cs : List Char) : Option Nat :=
  match idxOf lbraceC cs, idxOf '[' cs with
  | some a, some b => some (min a b)
  | some a, none => some a
  | none, b => b

/-- The extractor's `endIdx` computation: the last occurrence of a closing
curly brace or square bracket, whichever comes last.  (`Math.max` with `-1`
sentinels returns the other argument when one index is absent.) -/
def endIdx (cs : List Char) : Option Nat :=
  match lastIdxOf rbraceC cs, lastIdxOf ']' cs with
  | some a, some b => some (max a b)
  | some a, none => some a
  | none, b => b

/-- ECMAScript `String.prototype.substring p q`: clamps both arguments to the
string length and swaps them when given in descending order. -/
def jsSubstring (cs : List Char) (p q : Nat) : List Char :=
  let p' := min p cs.length
  let q' := min q cs.length
  (cs.drop (min p' q')).take (max p' q' - min p' q')

/-- The bracket-scan fallback of `parseJsonResponse`: take the substring from
`startIdx` to `endIdx` inclusive and parse it. -/
def bracketScan (cs : List Char) : Option Json :=
  match startIdx cs with
  | none => none
  | some s =>
    match endIdx cs with
    | none => none
    | some e => jsonParseL (jsSubstring cs s (e + 1))

/-- Model of `parseJsonResponse`: if the fence regex matches with a non-empty
(truthy) capture, parse the capture; otherwise fall back to the bracket scan.
Parse failures surface as `none` via the surrounding `try`/`catch`. -/
def parseJsonResponseL (cs : List Char) : Option Json :=
  match fenceCapture cs with
  | some m => if m = [] then bracketScan cs else jsonParseL m
  | none => bracketScan cs

/-- Model of `parseJsonResponse` on strings. -/
def parseJsonResponse (text : String) : Option Json :=
  parseJsonResponseL text.data

/-!
Model of `parsePrice` and the online-store price sorts
(src/services/geminiService.ts lines 570-599).
-/

/-- The `replace(/[^0-9.]/g, '')` step of `parsePrice`. -/
def stripNonNumeric (s : String) : String :=
  String.mk (s.data.filter (fun c => c.isDigit || c == '.'))

/-- JS `parseFloat` restricted to strings of digits and dots (the only
inputs `parsePrice` feeds it): longest prefix of the form
`digits? (dot digits?)?` containing at least one digit; `none` models `NaN`. -/
def parseFloatQ (cs : List Char) : Option ℚ :=
  let intDs := cs.takeWhile Char.isDigit
  match cs.dropWhile Char.isDigit with
  | c :: r2 =>
    if c = '.' then
      let fracDs := r2.takeWhile Char.isDigit
      if intDs = [] ∧ fracDs = [] then none
      else some ((digitsToNat intDs : ℚ) + (digitsToNat fracDs : ℚ) / (10 : ℚ) ^ fracDs.length)
    else if intDs = [] then none else some (digitsToNat intDs : ℚ)
  | [] => if intDs = [] then none else some (digitsToNat intDs : ℚ)

/-- Model of `parsePrice`: empty input and `NaN` both map to `Infinity`,
rendered as `⊤ : WithTop ℚ`. -/
def parsePrice (priceStr : String) : WithTop ℚ :=
  if priceStr = "" then ⊤
  else
    match parseFloatQ (stripNonNumeric priceStr).data with
    | none => ⊤
    | some q => (q : WithTop ℚ)

/-- Online store entry (src/types.ts). -/
structure OnlineStore where
  platform : String
  price : String
  stockStatus : String
  url : String
deriving DecidableEq

/-- Comparator order for the `price_asc` sort key. -/
def storeLeAsc (a b : OnlineStore) : Prop :=
  parsePrice a.price ≤ parsePrice b.price

/-- Comparator order for the `price_desc` sort key. -/
def storeLeDesc (a b : OnlineStore) : Prop :=
  parsePrice b.price ≤ parsePrice a.price

instance : DecidableRel storeLeAsc := fun a b =>
  inferInstanceAs (Decidable (parsePrice a.price ≤ parsePrice b.price))

instance : DecidableRel storeLeDesc := fun a b =>
  inferInstanceAs (Decidable (parsePrice b.price ≤ parsePrice a.price))

instance : IsTotal OnlineStore storeLeAsc :=
  ⟨fun a b => le_total (parsePrice a.price) (parsePrice b.price)⟩

instance : IsTrans OnlineStore storeLeAsc :=
  ⟨fun _ _ _ hab hbc => le_trans hab hbc⟩

instance : IsTotal OnlineStore storeLeDesc :=
  ⟨fun a b => le_total (parsePrice b.price) (parsePrice a.price)⟩

instance : IsTrans OnlineStore storeLeDesc :=
  ⟨fun _ _ _ hab hbc => le_trans hbc hab⟩

/-- `OnlineStoresView.sortedStores` for the `price_asc` key: a stable sort of
the store list by ascending parsed price. -/
def sortedStoresPriceAsc (l : List OnlineStore) : List OnlineStore :=
  List.insertionSort storeLeAsc l

/-- `OnlineStoresView.sortedStores` for the `price_desc` key: a stable sort
of the store list by descending parsed price. -/
def sortedStoresPriceDesc (l : List OnlineStore) : List OnlineStore :=
  List.insertionSort storeLeDesc l

/-!
Model of the orchestrator (the `App` component's state and the
`handleAnalysis` / `handleSimilarProductAnalysis` pipelines, together with
`fullReset` / `softReset`).  The React `useState` cells become the fields of
`AppState`; one pipeline run is a pure function from an oracle recording the
outcome of every external call (`Gateway`) and the pre-run state to the
post-run state plus the list of calls actually issued.  `Promise.all` joins
are sequentialised (the code is single-threaded and each gateway call
converts its own failures to null, so the join order is unobservable).
-/

/-- Top-level UI step (src/types.ts `AppStep`). -/
inductive AppStep where
  | UPLOAD
  | PROCESSING
  | RESULTS
  | ERROR
deriving DecidableEq

/-- Tab selection inside the RESULTS step (src/types.ts `ResultView`). -/
inductive ResultView where
  | DETAILS
  | NEARBY
  | ONLINE
  | SIMILAR
deriving DecidableEq

/-- Cached device location (src/types.ts `UserLocation`). -/
structure UserLocation where
  latitude : ℚ
  longitude : ℚ
deriving DecidableEq

/-- Identified product plus details (src/types.ts `ProductInfo`). -/
structure ProductInfo where
  name : String
  type : String
  keyFeatures : List String
  approximatePrice : String
deriving DecidableEq

/-- Nearby physical store (src/types.ts `Shop`). -/
structure Shop where
  name : String
  address : String
  distance : String
  availabilityScore : ℚ
  rating : ℚ
deriving DecidableEq

/-- Displayed similar product: `imageUrl` always present (src/types.ts). -/
structure SimilarProduct where
  name : String
  imageUrl : String
deriving DecidableEq

/-- Raw similar-product search result: `imageUrl` optional per entry
(return type of `findSimilarProducts`). -/
structure RawSimilar where
  name : String
  imageUrl : Option String
deriving DecidableEq

/-- Result of `getProductDetails` (`ProductInfo` without name and type). -/
structure ProductDetails where
  keyFeatures : List String
  approximatePrice : String
deriving DecidableEq

/-- The orchestrator's mutable session state: one field per `useState` cell
of the `App` component. -/
structure AppState where
  step : AppStep
  processingMessage : String
  error : Option String
  imageUrl : Option String
  productInfo : Option ProductInfo
  nearbyShops : Option (List Shop)
  onlineStores : Option (List OnlineStore)
  similarProducts : Option (List SimilarProduct)
  userLocation : Option UserLocation
  currentView : ResultView
deriving DecidableEq

/-- Oracle for the outcome of each external interaction during one pipeline
run: each AI-gateway operation returns `none` for both extraction failures
and caught call failures; `geolocate = none` models a geolocation
rejection (permission denied or unavailable); `imageBytes` gives the raw
base64 payload returned by image synthesis for a product name, or `none`. -/
structure Gateway where
  identify : Option (String × String)
  geolocate : Option UserLocation
  details : Option ProductDetails
  shops : Option (List Shop)
  stores : Option (List OnlineStore)
  similar : Option (List RawSimilar)
  imageBytes : String → Option String

/-- External calls a pipeline run can issue, recorded in order. -/
inductive Call where
  | identifyCall
  | geolocateCall
  | detailsCall
  | shopsCall
  | storesCall
  | similarCall
  | generateImageCall (productName : String)
deriving DecidableEq

/-- `generateProductImage`: a successful synthesis wraps the base64 payload
in a JPEG data URI; failure is `none`. -/
def generateProductImage (g : Gateway) (productName : String) : Option String :=
  (g.imageBytes productName).map (fun b => "data:image/jpeg;base64," ++ b)

/-- `softReset`: clears per-analysis result state (message, error, image,
product info, shops, stores, similar products, tab) and touches neither the
step nor the cached user location. -/
def softReset (st : AppState) : AppState :=
  { st with
    processingMessage := ""
    error := none
    imageUrl := none
    productInfo := none
    nearbyShops := none
    onlineStores := none
    similarProducts := none
    currentView := ResultView.DETAILS }

/-- `fullReset`: returns to the UPLOAD step, performs the soft reset and
additionally discards the cached user location. -/
def fullReset (st : AppState) : AppState :=
  { softReset st with
    step := AppStep.UPLOAD
    userLocation := none }

/-- Second-wave processing of one similar-product candidate: keep a truthy
supplied `imageUrl`, otherwise attempt image synthesis; the second component
is the candidate's final (possibly absent) image. -/
def processOne (g : Gateway) : RawSimilar → String × Option String
  | ⟨nm, some u⟩ =>
    if u = "" then (nm, generateProductImage g nm) else (nm, some u)
  | ⟨nm, none⟩ => (nm, generateProductImage g nm)

/-- The final `filter(p => p.imageUrl)` test on one processed candidate:
kept exactly when its image is present and non-empty. -/
def keepTruthy : String × Option String → Option SimilarProduct
  | (nm, some u) => if u = "" then none else some ⟨nm, u⟩
  | (_, none) => none

/-- The final `filter(p => p.imageUrl)` over processed candidates. -/
def finalizeSimilar (l : List (String × Option String)) : List SimilarProduct :=
  l.filterMap keepTruthy

/-- Per-candidate description of the second wave, used to state its result:
a candidate survives exactly when it ends up with a non-empty image, which it
keeps from the search result or receives from synthesis. -/
def resolveSimilar (g : Gateway) : RawSimilar → Option SimilarProduct
  | ⟨nm, some u⟩ =>
    if u = "" then
      (generateProductImage g nm).bind (fun w => if w = "" then none else some ⟨nm, w⟩)
    else some ⟨nm, u⟩
  | ⟨nm, none⟩ =>
    (generateProductImage g nm).bind (fun w => if w = "" then none else some ⟨nm, w⟩)

/-- The generate-image calls issued by the second wave: one per candidate
whose supplied `imageUrl` is absent or empty. -/
def secondWaveCalls (raws : List RawSimilar) : List Call :=
  raws.filterMap (fun p =>
    match p with
    | ⟨nm, some u⟩ => if u = "" then some (Call.generateImageCall nm) else none
    | ⟨nm, none⟩ => some (Call.generateImageCall nm))

/-- Continuation of `handleAnalysis` after a location is in hand: the four
concurrent lookups are issued, details are mandatory, and the similar-product
list goes through the image-backfill second wave. -/
def afterLocation (g : Gateway) (productName productType : String)
    (st : AppState) (calls : List Call) : AppState × List Call :=
  let s := { st with processingMessage := "Finding product details..." }
  let calls := calls ++ [Call.detailsCall, Call.shopsCall, Call.storesCall, Call.similarCall]
  match g.details with
  | none =>
    ({ s with
        step := AppStep.ERROR
        error := some "Could not fetch product details." }, calls)
  | some d =>
    let s := { s with
      productInfo := some ⟨productName, productType, d.keyFeatures, d.approximatePrice⟩
      nearbyShops := g.shops
      onlineStores := g.stores }
    match g.similar with
    | none =>
      ({ s with
          similarProducts := none
          step := AppStep.RESULTS }, calls)
    | some raws =>
      ({ s with
          processingMessage := "Generating product visuals..."
          similarProducts := some (finalizeSimilar (raws.map (processOne g)))
          step := AppStep.RESULTS },
        calls ++ secondWaveCalls raws)

/-- One run of the `handleAnalysis` pipeline: enter PROCESSING, soft-reset,
record the working image, then identify, locate (only when no cached
location), join the four lookups, and backfill similar-product images.
Thrown errors are modelled by the ERROR outcome the `catch` produces. -/
def handleAnalysis (g : Gateway) (img : String) (st : AppState) : AppState × List Call :=
  let s1 := { softReset { st with step := AppStep.PROCESSING } with
    imageUrl := some img
    processingMessage := "Identifying product..." }
  match g.identify with
  | none =>
    ({ s1 with
        step := AppStep.ERROR
        error := some "Could not identify the product from the image." },
      [Call.identifyCall])
  | some nt =>
    match s1.userLocation with
    | some _ => afterLocation g nt.1 nt.2 s1 [Call.identifyCall]
    | none =>
      let s2 := { s1 with processingMessage := "Getting your location..." }
      match g.geolocate with
      | none =>
        ({ s2 with
            step := AppStep.ERROR
            error := some "Geolocation permission denied or unavailable." },
          [Call.identifyCall, Call.geolocateCall])
      | some loc =>
        afterLocation g nt.1 nt.2 { s2 with userLocation := some loc }
          [Call.identifyCall, Call.geolocateCall]

/-- One run of `handleSimilarProductAnalysis`: enter PROCESSING, fetch the
reference image through the proxy (`pr` is its outcome: the fetched file as
an image, or a failure detail), then re-enter `handleAnalysis`. -/
def handleSimilarProductAnalysis (g : Gateway) (pr : Except String String)
    (product : SimilarProduct) (st : AppState) : AppState × List Call :=
  let s := { st with
    step := AppStep.PROCESSING
    processingMessage := "Finding \"" ++ product.name ++ "\"..." }
  match pr with
  | Except.error msg =>
    ({ s with
        step := AppStep.ERROR
        error := some ("Could not analyze similar product. The image may be protected or inaccessible. Details: " ++ msg) },
      [])
  | Except.ok img => handleAnalysis g img s

/-!
Concrete oracles and states used by the witness theorems.
-/

/-- A gateway on which every external interaction fails. -/
def gwNone : Gateway :=
  ⟨none, none, none, none, none, none, fun _ => none⟩

/-- A gateway on which every call succeeds; the similar-product list has one
entry with a supplied image, one needing (successful) synthesis, and one with
an empty supplied image whose synthesis fails. -/
def gwEx : Gateway :=
  ⟨some ("X", "T"), some ⟨0, 0⟩, some ⟨["feat"], "$10"⟩, some [], some [],
    some [⟨"P1", some "http-img"⟩, ⟨"P2", none⟩, ⟨"P3", some ""⟩],
    fun n => if n = "P2" then some "B2" else none⟩

/-- `gwEx` with the mandatory details lookup failing. -/
def gwDetailsNone : Gateway :=
  { gwEx with details := none }

/-- The initial session state. -/
def stEx : AppState :=
  ⟨AppStep.UPLOAD, "", none, none, none, none, none, none, none, ResultView.DETAILS⟩

/-- A session state with a cached location. -/
def stLoc : AppState :=
  { stEx with userLocation := some ⟨1, 2⟩ }

/-!
Helper lemmas.
-/

/-- The empty input is not valid JSON. -/
theorem jsonParseL_nil : jsonParseL [] = none := rfl

/-- A found first-occurrence index is inside the list. -/
theorem idxOf_lt_length {c : Char} :
    ∀ {l : List Char} {i : Nat}, idxOf c l = some i → i < l.length := by
  intro l
  induction l with
  | nil => intro i h; simp [idxOf] at h
  | cons x xs ih =>
    intro i h
    by_cases hx : x = c
    · simp [idxOf, hx] at h
      simp [← h]
    · simp only [idxOf, if_neg hx, Option.map_eq_some'] at h
      obtain ⟨j, hj, rfl⟩ := h
      have := ih hj
      simp only [List.length_cons]
      omega

/-- A found last-occurrence index is inside the list. -/
theorem lastIdxOf_lt_length {c : Char} {l : List Char} {i : Nat}
    (h : lastIdxOf c l = some i) : i < l.length := by
  simp only [lastIdxOf, Option.map_eq_some'] at h
  obtain ⟨j, hj, rfl⟩ := h
  have := idxOf_lt_length hj
  simp only [List.length_reverse] at this
  omega

/-- The extractor's `startIdx` is inside the text. -/
theorem startIdx_lt_length {l : List Char} {s : Nat}
    (h : startIdx l = some s) : s < l.length := by
  unfold startIdx at h
  cases hb : idxOf lbraceC l with
  | none =>
    rw [hb] at h
    cases hk : idxOf '[' l with
    | none => rw [hk] at h; cases h
    | some b => rw [hk] at h; cases h; exact idxOf_lt_length hk
  | some a =>
    rw [hb] at h
    cases hk : idxOf '[' l with
    | none => rw [hk] at h; cases h; exact idxOf_lt_length hb
    | some b =>
      rw [hk] at h
      cases h
      have h1 := idxOf_lt_length hb
      have h2 := idxOf_lt_length hk
      omega

/-- The extractor's `endIdx` is inside the text. -/
theorem endIdx_lt_length {l : List Char} {e : Nat}
    (h : endIdx l = some e) : e < l.length := by
  unfold endIdx at h
  cases hb : lastIdxOf rbraceC l with
  | none =>
    rw [hb] at h
    cases hk : lastIdxOf ']' l with
    | none => rw [hk] at h; cases h
    | some b => rw [hk] at h; cases h; exact lastIdxOf_lt_length hk
  | some a =>
    rw [hb] at h
    cases hk : lastIdxOf ']' l with
    | none => rw [hk] at h; cases h; exact lastIdxOf_lt_length hb
    | some b =>
      rw [hk] at h
      cases h
      have h1 := lastIdxOf_lt_length hb
      have h2 := lastIdxOf_lt_length hk
      omega

/-- On an in-range ascending index pair, the ECMAScript substring is the
plain drop/take slice. -/
theorem jsSubstring_eq_slice {cs : List Char} {s e : Nat}
    (hs : s < cs.length) (he : e < cs.length) (hse : s ≤ e) :
    jsSubstring cs s (e + 1) = (cs.drop s).take (e + 1 - s) := by
  have h1 : min s cs.length = s := by omega
  have h2 : min (e + 1) cs.length = e + 1 := by omega
  have h3 : min s (e + 1) = s := by omega
  have h4 : max s (e + 1) = e + 1 := by omega
  simp only [jsSubstring, h1, h2, h3, h4]

/-- The backfill kept-entry test evaluated on a synthesis outcome. -/
theorem backfill_eq_some {g : Gateway} {nm : String} {q : SimilarProduct}
    (h : (generateProductImage g nm).bind
      (fun w => if w = "" then none else some (SimilarProduct.mk nm w)) = some q) :
    q.imageUrl ≠ "" := by
  cases hw : generateProductImage g nm with
  | none => rw [hw] at h; cases h
  | some w =>
    rw [hw, Option.some_bind] at h
    by_cases hwe : w = ""
    · rw [if_pos hwe] at h; cases h
    · rw [if_neg hwe] at h; cases h; exact hwe

/-- A candidate the second wave keeps has a non-empty image URL. -/
theorem resolveSimilar_imageUrl_ne_empty {g : Gateway} {p : RawSimilar}
    {q : SimilarProduct} (h : resolveSimilar g p = some q) : q.imageUrl ≠ "" := by
  rcases p with ⟨nm, iu⟩
  rcases iu with _ | u
  · exact backfill_eq_some (by simpa [resolveSimilar] using h)
  · rw [resolveSimilar] at h
    by_cases he : u = ""
    · rw [if_pos he] at h
      exact backfill_eq_some h
    · rw [if_neg he] at h; cases h; exact he

/-- The implementation's map-then-filter second wave computes, candidate by
candidate, the `resolveSimilar` description. -/
theorem finalizeSimilar_map (g : Gateway) (raws : List RawSimilar) :
    finalizeSimilar (raws.map (processOne g)) = raws.filterMap (resolveSimilar g) := by
  induction raws with
  | nil => rfl
  | cons p t ih =>
    simp only [List.map_cons, finalizeSimilar, List.filterMap_cons] at ih ⊢
    rw [← ih]
    rcases p with ⟨nm, iu⟩
    rcases iu with _ | u
    · rw [processOne, resolveSimilar]
      cases hw : generateProductImage g nm with
      | none => simp [keepTruthy]
      | some w => by_cases hwe : w = "" <;> simp [keepTruthy, hwe]
    · by_cases he : u = ""
      · rw [processOne, resolveSimilar, if_pos he, if_pos he]
        cases hw : generateProductImage g nm with
        | none => simp [keepTruthy]
        | some w => by_cases hwe : w = "" <;> simp [keepTruthy, hwe]
      · rw [processOne, resolveSimilar, if_neg he, if_neg he]
        simp [keepTruthy, he]

/-- `afterLocation` never changes the cached location. -/
theorem afterLocation_userLocation (g : Gateway) (n t : String)
    (s : AppState) (calls : List Call) :
    (afterLocation g n t s calls).1.userLocation = s.userLocation := by
  unfold afterLocation
  cases g.details with
  | none => rfl
  | some d =>
    cases g.similar with
    | none => rfl
    | some raws => rfl

/-- `handleAnalysis` preserves an already-cached location on every path. -/
theorem handleAnalysis_userLocation (g : Gateway) (img : String)
    (st : AppState) (loc : UserLocation) (h : st.userLocation = some loc) :
    (handleAnalysis g img st).1.userLocation = some loc := by
  unfold handleAnalysis
  cases g.identify with
  | none => simpa [softReset] using h
  | some nt =>
    simp only [softReset, h]
    rw [afterLocation_userLocation]

/-!
Claim theorems.
-/

/-- C8: `parsePrice` strips all characters other than digits and dots, then
converts to a float, mapping unparsable results to positive infinity:
`parsePrice "$1,234.50" = 1234.5`, `parsePrice "" = ∞`,
`parsePrice "Free" = ∞`. -/
theorem c8_parsePrice_examples :
    parsePrice "$1,234.50" = ((2469 / 2 : ℚ) : WithTop ℚ) ∧
    parsePrice "" = ⊤ ∧ parsePrice "Free" = ⊤ := by
  refine ⟨?_, rfl, rfl⟩
  with_unfolding_all rfl

/-- C1, amended: the ascending price sort places entries with unparsable
price strings (parsed as infinity) after every other entry, but the
descending sort places them before every other entry, not at the end. -/
theorem c1_price_sort_unparsable_placement (l : List OnlineStore) :
    (sortedStoresPriceAsc l).Pairwise
      (fun a b => parsePrice a.price = ⊤ → parsePrice b.price = ⊤) ∧
    (sortedStoresPriceDesc l).Pairwise
      (fun a b => parsePrice b.price = ⊤ → parsePrice a.price = ⊤) := by
  constructor
  · exact (List.sorted_insertionSort storeLeAsc l).imp
      (fun hab ha => top_le_iff.mp (ha ▸ hab))
  · exact (List.sorted_insertionSort storeLeDesc l).imp
      (fun hab hb => top_le_iff.mp (hb ▸ hab))

/-- C1, counterexample to the claim as stated: under the descending price
sort, the entry with the unparsable price "Free" sorts to the front, ahead
of a parsable entry, so unparsable entries are not at the end. -/
theorem c1_cex :
    sortedStoresPriceDesc [⟨"A", "Free", "In Stock", "u1"⟩, ⟨"B", "$5", "In Stock", "u2"⟩] =
      [⟨"A", "Free", "In Stock", "u1"⟩, ⟨"B", "$5", "In Stock", "u2"⟩] ∧
    parsePrice "Free" = ⊤ ∧ parsePrice "$5" ≠ ⊤ := by
  refine ⟨by decide, rfl, by decide⟩

/-- C2, amended: when the extractor's fence regex matches — i.e. at the
first fenced block of the input — with a non-empty captured interior, and
that interior is valid JSON, the extractor returns its parsed value.  (An
earlier fence with invalid or empty interior preempts a later json fence, so
the claim as stated, quantified over any fenced block in the input, fails.) -/
theorem c2_fenced_json (text : String) (c : List Char) (v : Json)
    (hm : fenceCapture text.data = some c) (hne : c ≠ [])
    (hv : jsonParseL c = some v) :
    parseJsonResponse text = some v := by
  simp only [parseJsonResponse, parseJsonResponseL, hm]
  rw [if_neg hne]
  exact hv

/-- C2, witness: a json-tagged fenced block containing `[1]` is extracted
and parsed. -/
theorem c2_witness :
    jsonParseL ['[', '1', ']'] = some (Json.arr [Json.num 1]) ∧
    parseJsonResponse "```json [1] ```" = some (Json.arr [Json.num 1]) :=
  ⟨rfl, c2_fenced_json "```json [1] ```" ['[', '1', ']'] (Json.arr [Json.num 1])
    rfl (by decide) rfl⟩

/-- C2, counterexample to the claim as stated: the input contains a fenced
json block whose interior `[1,2]` is valid JSON, but an earlier fence with
interior `foo` is matched first, its parse fails, and the extractor returns
null instead of the parsed value. -/
theorem c2_cex :
    "```foo``` x ```json [1,2] ```" = "```foo``` x " ++ "```json" ++ " [1,2] " ++ "```" ∧
    jsonParse "[1,2]" = some (Json.arr [Json.num 1, Json.num 2]) ∧
    parseJsonResponse "```foo``` x ```json [1,2] ```" = none :=
  ⟨rfl, rfl, rfl⟩

/-- C3: on fence-free input containing an opening brace or bracket and a
closing brace or bracket, the extractor parses the substring from the first
opening occurrence to the last closing occurrence inclusive, and returns the
parse when that substring is valid JSON. -/
theorem c3_bracket_scan (text : String) (s e : Nat) (v : Json)
    (hnf : fenceCapture text.data = none)
    (hs : startIdx text.data = some s) (he : endIdx text.data = some e)
    (hv : jsonParseL ((text.data.drop s).take (e + 1 - s)) = some v) :
    parseJsonResponse text = some v := by
  have hsl := startIdx_lt_length hs
  have hel := endIdx_lt_length he
  have hse : s ≤ e := by
    by_contra hlt
    push_neg at hlt
    have hz : e + 1 - s = 0 := by omega
    rw [hz, List.take_zero, jsonParseL_nil] at hv
    cases hv
  simp only [parseJsonResponse, parseJsonResponseL, hnf, bracketScan, hs, he]
  rw [jsSubstring_eq_slice hsl hel hse]
  exact hv

/-- C3, witness: in `ab[true]cd` the scan finds `[true]` and parses it. -/
theorem c3_witness :
    fenceCapture ("ab[true]cd").data = none ∧
    startIdx ("ab[true]cd").data = some 2 ∧
    endIdx ("ab[true]cd").data = some 7 ∧
    parseJsonResponse "ab[true]cd" = some (Json.arr [Json.bool true]) :=
  ⟨rfl, rfl, rfl,
    c3_bracket_scan "ab[true]cd" 2 7 (Json.arr [Json.bool true]) rfl rfl rfl rfl⟩

/-- C7: the extractor is a total function into `Option`, and on input with
no recoverable JSON structure — no fence, and either no usable
bracket/brace span or an unparsable candidate substring — it returns null
(never an exception: thrown parse errors are caught). -/
theorem c7_no_structure_null (text : String)
    (hnf : fenceCapture text.data = none)
    (h : ∀ s e, startIdx text.data = some s → endIdx text.data = some e →
      jsonParseL (jsSubstring text.data s (e + 1)) = none) :
    parseJsonResponse text = none := by
  simp only [parseJsonResponse, parseJsonResponseL, hnf, bracketScan]
  cases hs : startIdx text.data with
  | none => rfl
  | some s =>
    cases he : endIdx text.data with
    | none => rfl
    | some e => exact h s e hs he

/-- C7, witness: prose with no braces, brackets or fences yields null. -/
theorem c7_witness :
    fenceCapture ("hello").data = none ∧ parseJsonResponse "hello" = none :=
  ⟨rfl, c7_no_structure_null "hello" rfl
    (fun _s _e hs _ => Option.noConfusion
      ((rfl : (none : Option Nat) = startIdx (String.data "hello")).trans hs))⟩

/-- C10, amended: when the fence regex matches with a non-empty captured
interior that is not valid JSON, the extractor returns null without
attempting the bracket-scan fallback.  (When the captured interior is empty
the `match[1]` truthiness test fails and the code does fall through to the
bracket scan, so the claim as stated fails.) -/
theorem c10_fence_shortcircuits (text : String) (c : List Char)
    (hm : fenceCapture text.data = some c) (hne : c ≠ [])
    (hbad : jsonParseL c = none) :
    parseJsonResponse text = none := by
  simp only [parseJsonResponse, parseJsonResponseL, hm]
  rw [if_neg hne]
  exact hbad

/-- C10, witness: a fenced block with unparsable interior `foo` yields null
even though nothing else in the input parses either. -/
theorem c10_witness :
    fenceCapture ("x ```foo``` [2]").data = some ['f', 'o', 'o'] ∧
    parseJsonResponse "x ```foo``` [2]" = none :=
  ⟨rfl, c10_fence_shortcircuits "x ```foo``` [2]" ['f', 'o', 'o']
    rfl (by decide) rfl⟩

/-- C10, counterexample to the claim as stated: a fence whose interior is
empty (hence not valid JSON) does not short-circuit; the extractor falls
through to the bracket scan and returns the parse of `[1]`. -/
theorem c10_cex :
    fenceCapture ("``` ``` [1]").data = some [] ∧
    jsonParseL [] = none ∧
    parseJsonResponse "``` ``` [1]" = some (Json.arr [Json.num 1]) :=
  ⟨rfl, rfl, rfl⟩

/-- C4: when identification returns null, the pipeline ends in the ERROR
state and the identification call is the only call issued — in particular
none of the four downstream lookups runs and no geolocation request is
made. -/
theorem c4_identify_null_halts (g : Gateway) (img : String) (st : AppState)
    (h : g.identify = none) :
    (handleAnalysis g img st).1.step = AppStep.ERROR ∧
    (handleAnalysis g img st).2 = [Call.identifyCall] := by
  unfold handleAnalysis
  rw [h]
  exact ⟨rfl, rfl⟩

/-- C4, witness: the all-failing gateway ends in ERROR having only tried to
identify. -/
theorem c4_witness :
    (handleAnalysis gwNone "img" stEx).1.step = AppStep.ERROR ∧
    (handleAnalysis gwNone "img" stEx).2 = [Call.identifyCall] :=
  c4_identify_null_halts gwNone "img" stEx rfl

/-- C5: when the details lookup returns null the pipeline ends in the ERROR
state (with the details failure message) even though identification, the
location, and all three optional lookups succeeded. -/
theorem c5_details_null_error (g : Gateway) (img : String) (st : AppState)
    (n t : String) (hid : g.identify = some (n, t))
    (hloc : st.userLocation.isSome ∨ g.geolocate.isSome)
    (hdet : g.details = none)
    (_hshops : g.shops.isSome) (_hstores : g.stores.isSome)
    (_hsim : g.similar.isSome) :
    (handleAnalysis g img st).1.step = AppStep.ERROR ∧
    (handleAnalysis g img st).1.error = some "Could not fetch product details." := by
  unfold handleAnalysis
  rw [hid]
  cases hul : st.userLocation with
  | some loc =>
    simp only [softReset, hul, afterLocation, hdet]
    exact ⟨trivial, trivial⟩
  | none =>
    rcases hloc with hl | hg
    · rw [hul] at hl; cases hl
    · obtain ⟨loc, hloc'⟩ := Option.isSome_iff_exists.mp hg
      simp only [softReset, hul, hloc', afterLocation, hdet]
      exact ⟨trivial, trivial⟩

/-- C5, witness: a gateway succeeding everywhere except the details lookup
still ends in ERROR. -/
theorem c5_witness :
    (handleAnalysis gwDetailsNone "img" stEx).1.step = AppStep.ERROR ∧
    (handleAnalysis gwDetailsNone "img" stEx).1.error =
      some "Could not fetch product details." :=
  c5_details_null_error gwDetailsNone "img" stEx "X" "T" rfl (Or.inr rfl)
    rfl rfl rfl rfl

/-- C6: when the similar-product search returns a (non-null) list, the
RESULTS state shows exactly the candidates that end up with a non-empty
image URL: a candidate with a truthy supplied `imageUrl` keeps it, one
without receives the synthesized image, and one whose synthesis fails is
dropped; every displayed entry has a non-empty `imageUrl`. -/
theorem c6_similar_image_backfill (g : Gateway) (img : String) (st : AppState)
    (n t : String) (hid : g.identify = some (n, t))
    (hloc : st.userLocation.isSome ∨ g.geolocate.isSome)
    (d : ProductDetails) (hdet : g.details = some d)
    (raws : List RawSimilar) (hsim : g.similar = some raws) :
    (handleAnalysis g img st).1.step = AppStep.RESULTS ∧
    (handleAnalysis g img st).1.similarProducts =
      some (raws.filterMap (resolveSimilar g)) ∧
    ∀ q ∈ raws.filterMap (resolveSimilar g), q.imageUrl ≠ "" := by
  have hmain : (handleAnalysis g img st).1.step = AppStep.RESULTS ∧
      (handleAnalysis g img st).1.similarProducts =
        some (raws.filterMap (resolveSimilar g)) := by
    unfold handleAnalysis
    rw [hid]
    cases hul : st.userLocation with
    | some loc =>
      simp only [softReset, hul, afterLocation, hdet, hsim, finalizeSimilar_map]
      exact ⟨trivial, trivial⟩
    | none =>
      rcases hloc with hl | hg
      · rw [hul] at hl; cases hl
      · obtain ⟨loc, hloc'⟩ := Option.isSome_iff_exists.mp hg
        simp only [softReset, hul, hloc', afterLocation, hdet, hsim, finalizeSimilar_map]
        exact ⟨trivial, trivial⟩
  refine ⟨hmain.1, hmain.2, ?_⟩
  intro q hq
  obtain ⟨p, _, hr⟩ := List.mem_filterMap.mp hq
  exact resolveSimilar_imageUrl_ne_empty hr

/-- C6, witness: of three candidates — supplied image, successful synthesis,
empty supplied image with failing synthesis — the first two are displayed
with non-empty images and the third is dropped. -/
theorem c6_witness :
    (handleAnalysis gwEx "img" stEx).1.step = AppStep.RESULTS ∧
    (handleAnalysis gwEx "img" stEx).1.similarProducts =
      some ([⟨"P1", some "http-img"⟩, ⟨"P2", none⟩, ⟨"P3", some ""⟩].filterMap
        (resolveSimilar gwEx)) ∧
    ∀ q ∈ [RawSimilar.mk "P1" (some "http-img"), ⟨"P2", none⟩,
        ⟨"P3", some ""⟩].filterMap (resolveSimilar gwEx), q.imageUrl ≠ "" :=
  c6_similar_image_backfill gwEx "img" stEx "X" "T" rfl (Or.inr rfl)
    ⟨["feat"], "$10"⟩ rfl [⟨"P1", some "http-img"⟩, ⟨"P2", none⟩, ⟨"P3", some ""⟩] rfl

/-- C9: the full reset (start over) returns to UPLOAD clearing everything
including the cached location, while the soft reset performed when
re-entering PROCESSING clears the per-analysis result state but leaves the
cached location unchanged — and both re-entry pipelines (`handleAnalysis`,
including when reached via the find-similar action through
`handleSimilarProductAnalysis`) preserve a cached location on every path. -/
theorem c9_reset_location (st : AppState) (loc : UserLocation)
    (h : st.userLocation = some loc) (g : Gateway) (img : String)
    (pr : Except String String) (p : SimilarProduct) :
    (fullReset st).step = AppStep.UPLOAD ∧ (fullReset st).userLocation = none ∧
    (fullReset st).productInfo = none ∧ (fullReset st).nearbyShops = none ∧
    (fullReset st).onlineStores = none ∧ (fullReset st).similarProducts = none ∧
    (fullReset st).imageUrl = none ∧ (fullReset st).error = none ∧
    (softReset st).step = st.step ∧ (softReset st).userLocation = some loc ∧
    (softReset st).productInfo = none ∧ (softReset st).nearbyShops = none ∧
    (softReset st).onlineStores = none ∧ (softReset st).similarProducts = none ∧
    (softReset st).imageUrl = none ∧ (softReset st).error = none ∧
    (handleAnalysis g img st).1.userLocation = some loc ∧
    (handleSimilarProductAnalysis g pr p st).1.userLocation = some loc := by
  refine ⟨rfl, rfl, rfl, rfl, rfl, rfl, rfl, rfl, rfl, h, rfl, rfl, rfl, rfl, rfl, rfl,
    handleAnalysis_userLocation g img st loc h, ?_⟩
  unfold handleSimilarProductAnalysis
  cases pr with
  | error msg => exact h
  | ok file => exact handleAnalysis_userLocation g file _ loc h

/-- C9, witness: concrete run of both resets and both re-entry pipelines
from a state with a cached location. -/
theorem c9_witness :
    (fullReset stLoc).step = AppStep.UPLOAD ∧ (fullReset stLoc).userLocation = none ∧
    (fullReset stLoc).productInfo = none ∧ (fullReset stLoc).nearbyShops = none ∧
    (fullReset stLoc).onlineStores = none ∧ (fullReset stLoc).similarProducts = none ∧
    (fullReset stLoc).imageUrl = none ∧ (fullReset stLoc).error = none ∧
    (softReset stLoc).step = stLoc.step ∧
    (softReset stLoc).userLocation = some ⟨1, 2⟩ ∧
    (softReset stLoc).productInfo = none ∧ (softReset stLoc).nearbyShops = none ∧
    (softReset stLoc).onlineStores = none ∧ (softReset stLoc).similarProducts = none ∧
    (softReset stLoc).imageUrl = none ∧ (softReset stLoc).error = none ∧
    (handleAnalysis gwEx "img" stLoc).1.userLocation = some ⟨1, 2⟩ ∧
    (handleSimilarProductAnalysis gwEx (Except.ok "f") ⟨"p", "u"⟩ stLoc).1.userLocation =
      some ⟨1, 2⟩ :=
  c9_reset_location stLoc ⟨1, 2⟩ rfl gwEx "img" (Except.ok "f") ⟨"p", "u"⟩

end NPF
